import Mathlib

/-!
Shallow embedding of the MachineHealthCheck controller
(src/controllers/machinehealthcheck_controller.go) of the cluster-api
repository, together with proofs about its admission ("circuit breaker")
logic, its reconciliation pass, and its event-routing map functions.

Machine integers (Go int / int32) are modelled as Lean Int; no arithmetic
in the claims approaches the 32-bit boundary, and no Go operation here
relies on wraparound.
-/

namespace CAPI

/-! ## The intstr library (k8s.io/apimachinery/pkg/util/intstr)

The controller resolves the MaxUnhealthy field with
intstr.GetValueFromIntOrPercent.  We embed that library function: a value
is either an int or a string; a string has every "%" removed and is then
parsed with strconv.Atoi; a parse failure is an error; a percentage p of
total resolves to floor(p*total/100) when roundUp is false and to
ceil(p*total/100) when roundUp is true. -/

/-- An IntOrString value, as in k8s.io/apimachinery: either an int32
or a string. -/
inductive IntOrString where
  | ofInt (v : Int)
  | ofString (s : String)
deriving DecidableEq, Repr

/-- Parse a nonempty all-digit character list as a natural number;
any other list is a parse error (None). Helper for the Atoi model. -/
def parseDigits (cs : List Char) : Option Nat :=
  if cs = [] then none
  else if cs.all Char.isDigit then
    some (cs.foldl (fun acc c => acc * 10 + (c.toNat - 48)) 0)
  else none

/-- Model of Go strconv.Atoi: an optional sign followed by at least one
digit; anything else is an error. -/
def atoi (s : String) : Option Int :=
  match s.data with
  | '-' :: rest => (parseDigits rest).map (fun n => -(n : Int))
  | '+' :: rest => (parseDigits rest).map (fun n => (n : Int))
  | cs => (parseDigits cs).map (fun n => (n : Int))

/-- Model of intstr.getIntOrPercentValue: an int is returned as-is and is
not a percentage; a string has all percent signs removed and is parsed
with Atoi, yielding a percentage; a parse failure is an error (none). -/
def getIntOrPercentValue : IntOrString → Option (Int × Bool)
  | .ofInt v => some (v, false)
  | .ofString s =>
    match atoi (String.mk (s.data.filter (fun c => c ≠ '%'))) with
    | none => none
    | some v => some (v, true)

/-- Model of intstr.GetValueFromIntOrPercent for a non-nil value: a
percentage p resolves against total as floor(p*total/100) when roundUp is
false, ceil(p*total/100) when roundUp is true (math.Floor / math.Ceil on
the exact ratio); an int resolves to itself; a parse error propagates. -/
def getValueFromIntOrPercent (ios : IntOrString) (total : Int) (roundUp : Bool) :
    Option Int :=
  match getIntOrPercentValue ios with
  | none => none
  | some (v, isPercent) =>
    if isPercent then
      if roundUp then some (-(Int.fdiv (-(v * total)) 100))
      else some (Int.fdiv (v * total) 100)
    else some v

/-! ## Data model -/

/-- A status condition on a Machine, as set by the util/conditions
package: a type, a status, a severity, a reason and a message. -/
structure Condition where
  condType : String
  status : String
  severity : String
  reason : String
  message : String
deriving DecidableEq, Repr

/-- The condition written by conditions.MarkFalse(t.Machine,
clusterv1.MachineOwnerRemediatedCondition, clusterv1.WaitingForRemediation,
clusterv1.ConditionSeverityWarning, "MachineHealthCheck failed"). -/
def remediationCondition : Condition :=
  { condType := "OwnerRemediated"
    status := "False"
    severity := "Warning"
    reason := "WaitingForRemediation"
    message := "MachineHealthCheck failed" }

/-- Modelled from the spec: conditions.MarkFalse (util/conditions, a file
of this repository not under src/) sets the given condition on the object,
replacing any existing condition of the same type and leaving all other
conditions in place; it never removes a condition of a different type. -/
def setCondition (conds : List Condition) (c : Condition) : List Condition :=
  c :: conds.filter (fun c0 => c0.condType ≠ c.condType)

/-- A Machine object: name, namespace, labels, owning cluster name
(Spec.ClusterName), the backing node reference name (Status.NodeRef,
absent when nil) and its conditions. -/
structure Machine where
  name : String
  namespc : String
  labels : List (String × String)
  clusterName : String
  nodeRefName : Option String
  conditions : List Condition
deriving DecidableEq, Repr

/-- The label selector of a MachineHealthCheck, modelled by its
matchLabels component: a list of required key/value pairs. -/
structure LabelSelector where
  matchLabels : List (String × String)
deriving DecidableEq, Repr

/-- MachineHealthCheckSpec: the owning cluster name, the selector and the
MaxUnhealthy bound (nil modelled as none). -/
structure MachineHealthCheckSpec where
  clusterName : String
  selector : LabelSelector
  maxUnhealthy : Option IntOrString
deriving DecidableEq, Repr

/-- MachineHealthCheckStatus: expected machines, current healthy count and
the list of target machine names. -/
structure MachineHealthCheckStatus where
  expectedMachines : Int
  currentHealthy : Int
  targets : List String
deriving DecidableEq, Repr

/-- A MachineHealthCheck object: identity, metadata labels, spec and
status. -/
structure MachineHealthCheck where
  name : String
  namespc : String
  labels : List (String × String)
  spec : MachineHealthCheckSpec
  status : MachineHealthCheckStatus
deriving DecidableEq, Repr

/-- Embedding of isAllowedRemediation: if Spec.MaxUnhealthy is nil,
remediation is allowed; if resolving it against Status.ExpectedMachines
fails, remediation is not allowed; otherwise it is allowed iff
Status.ExpectedMachines - Status.CurrentHealthy <= the resolved value. -/
def isAllowedRemediation (mhc : MachineHealthCheck) : Bool :=
  match mhc.spec.maxUnhealthy with
  | none => true
  | some mu =>
    match getValueFromIntOrPercent mu mhc.status.expectedMachines false with
    | none => false
    | some maxUnhealthy =>
      decide (mhc.status.expectedMachines - mhc.status.currentHealthy ≤ maxUnhealthy)

/-! ## Targets and health classification

getTargetsFromMHC and healthCheckTargets live in a file of this
repository that is not under src/ (machinehealthcheck_targets.go); the
spec describes their contract, so we model them: a reconciliation pass
receives the resolved target list, and the health evaluation classifies
every target into exactly one of healthy, unhealthy or pending, which we
abstract as a classification function supplied to the pass.  Pending
targets contribute a candidate next-check duration. -/

/-- Health classification of a target, per the spec: exactly one of
healthy, unhealthy or pending. -/
inductive HealthClass where
  | healthy
  | unhealthy
  | pending
deriving DecidableEq, Repr

/-- A healthCheckTarget: the Machine it wraps (the Node and the patch
helper are carried implicitly; a patch of the target writes its Machine
back to the store). -/
structure Target where
  machine : Machine
deriving DecidableEq, Repr

/-- Modelled from the spec: healthCheckTargets (machinehealthcheck_targets.go,
not under src/) partitions the targets into the healthy list and the
unhealthy list, in input order, and returns the candidate next-check
durations of the pending targets; the classification rule itself
(node conditions and timeouts) is abstracted as the functions classify
and nextCheck. -/
def healthCheckTargets (classify : Target → HealthClass) (nextCheck : Target → Int)
    (targets : List Target) : List Target × List Target × List Int :=
  (targets.filter (fun t => classify t = .healthy),
   targets.filter (fun t => classify t = .unhealthy),
   (targets.filter (fun t => classify t = .pending)).map nextCheck)

/-- Modelled from the spec: minDuration (machinehealthcheck_targets.go,
not under src/) returns the minimum of a duration list, and zero for the
empty list. -/
def minDuration (durations : List Int) : Int :=
  match durations with
  | [] => 0
  | d :: ds => ds.foldl min d

/-! ## The reconciliation pass -/

/-- A ctrl.Result: the Requeue flag and the RequeueAfter duration. -/
structure CtrlResult where
  requeue : Bool
  requeueAfter : Int
deriving DecidableEq, Repr

/-- An event emitted through the recorder during a pass: the
RemediationRestricted warning with its three formatted values (total
targets, Status.CurrentHealthy, Spec.MaxUnhealthy), or the
EventMachineMarkedUnhealthy normal event naming the marked machine. -/
inductive Event where
  | restricted (totalTargets : Int) (currentHealthy : Int)
      (maxUnhealthy : Option IntOrString)
  | markedUnhealthy (machineName : String)
deriving DecidableEq, Repr

/-- The corev1 event type the recorder is given for each event:
EventTypeWarning for RemediationRestricted, EventTypeNormal for
EventMachineMarkedUnhealthy. -/
def Event.eventType : Event → String
  | .restricted _ _ _ => "Warning"
  | .markedUnhealthy _ => "Normal"

/-- Observable outcome of one reconcile pass: the returned ctrl.Result,
whether an error was returned, the MachineHealthCheck status as mutated
by the pass, the events emitted in order, and the machines written back
through target patch helpers, in patch order and final state. -/
structure ReconcileResult where
  result : CtrlResult
  err : Bool
  mhcStatus : MachineHealthCheckStatus
  events : List Event
  patched : List Machine
deriving DecidableEq, Repr

/-- The denied-path patch loop over append(healthy, unhealthy...): each
target's machine is written back unchanged; the first patch failure stops
the loop and the pass returns that error.  Returns the machines patched
so far and whether every patch succeeded. -/
def patchTargets (patchOk : String → Bool) : List Target → List Machine × Bool
  | [] => ([], true)
  | t :: ts =>
    if patchOk t.machine.name then
      match patchTargets patchOk ts with
      | (ms, ok) => (t.machine :: ms, ok)
    else ([], false)

/-- A target's machine after conditions.MarkFalse has set the
remediation condition on it. -/
def markMachine (t : Target) : Machine :=
  { t.machine with conditions := setCondition t.machine.conditions remediationCondition }

/-- The mark-for-remediation loop over the unhealthy targets: each
machine gets the remediation condition set, is patched, and on patch
success the marked-unhealthy event is emitted; the first patch failure
stops the loop.  Returns the machines patched so far, the events emitted
so far, and whether every patch succeeded. -/
def markUnhealthyLoop (patchOk : String → Bool) : List Target → List Machine × List Event × Bool
  | [] => ([], [], true)
  | t :: ts =>
    if patchOk (markMachine t).name then
      match markUnhealthyLoop patchOk ts with
      | (ms, evs, ok) =>
        (markMachine t :: ms, Event.markedUnhealthy (markMachine t).name :: evs, ok)
    else ([], [], false)

/-- The MachineHealthCheck as it stands when isAllowedRemediation is
called inside reconcile: Status.ExpectedMachines set to the target count,
Status.Targets to the target machine names, and Status.CurrentHealthy to
the number of targets classified healthy. -/
def postEvalMHC (classify : Target → HealthClass) (m : MachineHealthCheck)
    (targets : List Target) : MachineHealthCheck :=
  { m with status :=
    { expectedMachines := (targets.length : Int)
      currentHealthy := ((targets.filter (fun t => classify t = .healthy)).length : Int)
      targets := targets.map (fun t => t.machine.name) } }

/-- Embedding of MachineHealthCheckReconciler.reconcile from the point
where the targets have been resolved (the preceding steps are store and
watch plumbing whose failures abort the pass before any of the modelled
behaviour).  patchOk says which machine patches succeed; classify and
nextCheck abstract the health evaluation (see healthCheckTargets). -/
def reconcile (patchOk : String → Bool) (classify : Target → HealthClass)
    (nextCheck : Target → Int) (m : MachineHealthCheck) (targets : List Target) :
    ReconcileResult :=
  let totalTargets := targets.length
  let hcr := healthCheckTargets classify nextCheck targets
  let healthyT := hcr.1
  let unhealthyT := hcr.2.1
  let nextCheckTimes := hcr.2.2
  let m2 := postEvalMHC classify m targets
  if isAllowedRemediation m2 then
    match markUnhealthyLoop patchOk unhealthyT with
    | (markedMs, markEvs, true) =>
      match patchTargets patchOk healthyT with
      | (healthyMs, true) =>
        let minNext := minDuration nextCheckTimes
        if 0 < minNext then
          { result := { requeue := false, requeueAfter := minNext }
            err := false, mhcStatus := m2.status, events := markEvs
            patched := markedMs ++ healthyMs }
        else
          { result := { requeue := false, requeueAfter := 0 }
            err := false, mhcStatus := m2.status, events := markEvs
            patched := markedMs ++ healthyMs }
      | (healthyMs, false) =>
        { result := { requeue := false, requeueAfter := 0 }
          err := true, mhcStatus := m2.status, events := markEvs
          patched := markedMs ++ healthyMs }
    | (markedMs, markEvs, false) =>
      { result := { requeue := false, requeueAfter := 0 }
        err := true, mhcStatus := m2.status, events := markEvs
        patched := markedMs }
  else
    let ev := Event.restricted (totalTargets : Int) m2.status.currentHealthy m.spec.maxUnhealthy
    match patchTargets patchOk (healthyT ++ unhealthyT) with
    | (ms, true) =>
      { result := { requeue := true, requeueAfter := 0 }
        err := false, mhcStatus := m2.status, events := [ev], patched := ms }
    | (ms, false) =>
      { result := { requeue := false, requeueAfter := 0 }
        err := true, mhcStatus := m2.status, events := [ev], patched := ms }

/-! ## The outer Reconcile -/

/-- Result of a store Get as the controller observes it: the object, a
NotFound error, or another error. -/
inductive GetResult (α : Type) where
  | found (a : α)
  | notFound
  | otherError
deriving Repr

/-- Observable outcome of the outer Reconcile: the returned ctrl.Result,
whether an error was returned, the events emitted and the machines
patched. -/
structure OuterResult where
  result : CtrlResult
  err : Bool
  events : List Event
  patched : List Machine
deriving Repr

/-- Embedding of MachineHealthCheckReconciler.Reconcile: fetch the
MachineHealthCheck (NotFound returns success with nothing done, another
Get error returns an error); fetch the Cluster through
util.GetClusterByName, which surfaces any Get failure — NotFound
included — as an error that Reconcile returns (a nil cluster would be
dereferenced immediately after, so GetClusterByName cannot swallow
NotFound); return silently if paused; otherwise run the inner reconcile,
and on an inner error return it (the pass result is the zero Result). -/
def Reconcile (mhcGet : GetResult MachineHealthCheck) (clusterGet : GetResult Unit)
    (paused : Bool) (patchOk : String → Bool) (classify : Target → HealthClass)
    (nextCheck : Target → Int) (targets : List Target) : OuterResult :=
  match mhcGet with
  | .notFound =>
    { result := { requeue := false, requeueAfter := 0 }
      err := false, events := [], patched := [] }
  | .otherError =>
    { result := { requeue := false, requeueAfter := 0 }
      err := true, events := [], patched := [] }
  | .found m =>
    match clusterGet with
    | .notFound =>
      { result := { requeue := false, requeueAfter := 0 }
        err := true, events := [], patched := [] }
    | .otherError =>
      { result := { requeue := false, requeueAfter := 0 }
        err := true, events := [], patched := [] }
    | .found _ =>
      if paused then
        { result := { requeue := false, requeueAfter := 0 }
          err := false, events := [], patched := [] }
      else
        let inner := reconcile patchOk classify nextCheck m targets
        if inner.err then
          { result := { requeue := false, requeueAfter := 0 }
            err := true, events := inner.events, patched := inner.patched }
        else
          { result := inner.result, err := false
            events := inner.events, patched := inner.patched }

/-! ## The event router -/

/-- A reconcile.Request work item: the namespace and name of a
MachineHealthCheck to re-reconcile. -/
structure Request where
  namespc : String
  name : String
deriving DecidableEq, Repr

/-- The label key clusterv1.ClusterLabelName used to tag objects with
their owning cluster. -/
def clusterLabelName : String := "cluster.x-k8s.io/cluster-name"

/-- Modelled from the spec: hasMatchingLabels (a file of this repository
not under src/) decides whether a policy's label selector matches a
machine's labels; per the spec the selector matches when every selector
pair is among the machine's labels. -/
def hasMatchingLabels (sel : LabelSelector) (lbls : List (String × String)) : Bool :=
  sel.matchLabels.all (fun kv => lbls.lookup kv.1 = some kv.2)

/-- The client.List call of machineToMachineHealthCheck: all
MachineHealthChecks in the given namespace whose metadata labels carry
the cluster label with the given cluster name. -/
def listMHCs (store : List MachineHealthCheck) (ns : String) (clusterName : String) :
    List MachineHealthCheck :=
  store.filter (fun mhc => mhc.namespc = ns ∧ mhc.labels.lookup clusterLabelName = some clusterName)

/-- Embedding of machineToMachineHealthCheck: list the
MachineHealthChecks in the machine's namespace labeled with the machine's
cluster, keep those whose selector matches the machine's labels, and
enqueue one request per match. -/
def machineToMachineHealthCheck (store : List MachineHealthCheck) (m : Machine) :
    List Request :=
  (listMHCs store m.namespc m.clusterName).filterMap (fun mhc =>
    if hasMatchingLabels mhc.spec.selector m.labels then
      some { namespc := mhc.namespc, name := mhc.name }
    else none)

/-- Embedding of getMachineFromNode: list the machines whose
Status.NodeRef names the node; unless exactly one machine remains, an
error is returned (none); otherwise that machine. -/
def getMachineFromNode (machines : List Machine) (nodeName : String) : Option Machine :=
  match machines.filter (fun m => m.nodeRefName = some nodeName) with
  | [m] => some m
  | _ => none

/-- Embedding of nodeToMachineHealthCheck: resolve the node to its owning
machine; on resolution failure log and return no requests; otherwise
delegate to machineToMachineHealthCheck. -/
def nodeToMachineHealthCheck (store : List MachineHealthCheck) (machines : List Machine)
    (nodeName : String) : List Request :=
  match getMachineFromNode machines nodeName with
  | none => []
  | some m => machineToMachineHealthCheck store m

/-! ## Concrete instances used by witnesses and counterexamples -/

/-- A machine with no conditions. -/
def machine0 : Machine :=
  { name := "m0", namespc := "ns", labels := [("role", "worker")]
    clusterName := "c", nodeRefName := some "n0", conditions := [] }

/-- The target wrapping machine0. -/
def t0 : Target := { machine := machine0 }

/-- A machine that already carries the remediation condition from an
earlier pass. -/
def staleMachine : Machine :=
  { machine0 with name := "m1", conditions := [remediationCondition] }

/-- The target wrapping staleMachine. -/
def tStale : Target := { machine := staleMachine }

/-- A policy with no MaxUnhealthy bound. -/
def mhcNil : MachineHealthCheck :=
  { name := "hc", namespc := "ns", labels := [(clusterLabelName, "c")]
    spec := { clusterName := "c", selector := { matchLabels := [] }, maxUnhealthy := none }
    status := { expectedMachines := 0, currentHealthy := 0, targets := [] } }

/-- A policy with MaxUnhealthy 0. -/
def mhcZero : MachineHealthCheck :=
  { mhcNil with spec := { mhcNil.spec with maxUnhealthy := some (IntOrString.ofInt 0) } }

/-- A policy with MaxUnhealthy "50%" whose status records 3 expected
machines and 2 healthy ones. -/
def mhc50 : MachineHealthCheck :=
  { mhcNil with
    spec := { mhcNil.spec with maxUnhealthy := some (IntOrString.ofString "50%") }
    status := { expectedMachines := 3, currentHealthy := 2, targets := [] } }

/-- A policy whose MaxUnhealthy cannot be parsed. -/
def mhcMalformed : MachineHealthCheck :=
  { mhcNil with spec := { mhcNil.spec with maxUnhealthy := some (IntOrString.ofString "abc") } }

/-- A classification marking t0 unhealthy and every other target
healthy. -/
def classifyW (t : Target) : HealthClass :=
  if t = t0 then HealthClass.unhealthy else HealthClass.healthy

/-! ## Helper lemmas -/

theorem markMachine_name (t : Target) : (markMachine t).name = t.machine.name := rfl

theorem patchTargets_all_ok (patchOk : String → Bool) (ts : List Target)
    (h : ∀ t ∈ ts, patchOk t.machine.name = true) :
    patchTargets patchOk ts = (ts.map Target.machine, true) := by
  induction ts with
  | nil => rfl
  | cons t ts ih =>
    have ht := h t (List.mem_cons_self t ts)
    have ih2 := ih (fun t2 h2 => h t2 (List.mem_cons_of_mem t h2))
    simp [patchTargets, ht, ih2]

theorem markUnhealthyLoop_all_ok (patchOk : String → Bool) (ts : List Target)
    (h : ∀ t ∈ ts, patchOk t.machine.name = true) :
    markUnhealthyLoop patchOk ts =
      (ts.map markMachine, ts.map (fun t => Event.markedUnhealthy t.machine.name), true) := by
  induction ts with
  | nil => rfl
  | cons t ts ih =>
    have ht := h t (List.mem_cons_self t ts)
    have ih2 := ih (fun t2 h2 => h t2 (List.mem_cons_of_mem t h2))
    simp [markUnhealthyLoop, markMachine_name, ht, ih2]

/-- The denied branch of reconcile, fully evaluated under the assumption
that every target patch succeeds. -/
theorem reconcile_denied (patchOk : String → Bool) (classify : Target → HealthClass)
    (nextCheck : Target → Int) (m : MachineHealthCheck) (targets : List Target)
    (hden : isAllowedRemediation (postEvalMHC classify m targets) = false)
    (hp : ∀ t ∈ targets, patchOk t.machine.name = true) :
    reconcile patchOk classify nextCheck m targets =
      { result := { requeue := true, requeueAfter := 0 }
        err := false
        mhcStatus := (postEvalMHC classify m targets).status
        events := [Event.restricted (targets.length : Int)
          ((targets.filter (fun t => classify t = .healthy)).length : Int)
          m.spec.maxUnhealthy]
        patched := ((targets.filter (fun t => classify t = .healthy)) ++
          (targets.filter (fun t => classify t = .unhealthy))).map Target.machine } := by
  have hall : ∀ t ∈ (targets.filter (fun t => classify t = .healthy)) ++
      (targets.filter (fun t => classify t = .unhealthy)), patchOk t.machine.name = true := by
    intro t ht
    rcases List.mem_append.mp ht with h1 | h1
    · exact hp t (List.mem_of_mem_filter h1)
    · exact hp t (List.mem_of_mem_filter h1)
  have hpt := patchTargets_all_ok patchOk _ hall
  simp only [reconcile, healthCheckTargets, postEvalMHC] at hden hpt ⊢
  simp [hden, hpt]

/-- The granted branch of reconcile, fully evaluated under the assumption
that every target patch succeeds. -/
theorem reconcile_granted (patchOk : String → Bool) (classify : Target → HealthClass)
    (nextCheck : Target → Int) (m : MachineHealthCheck) (targets : List Target)
    (hadm : isAllowedRemediation (postEvalMHC classify m targets) = true)
    (hp : ∀ t ∈ targets, patchOk t.machine.name = true) :
    reconcile patchOk classify nextCheck m targets =
      { result :=
          { requeue := false,
            requeueAfter :=
              if 0 < minDuration ((targets.filter (fun t => classify t = .pending)).map nextCheck)
              then minDuration ((targets.filter (fun t => classify t = .pending)).map nextCheck)
              else 0 }
        err := false
        mhcStatus := (postEvalMHC classify m targets).status
        events := (targets.filter (fun t => classify t = .unhealthy)).map
          (fun t => Event.markedUnhealthy t.machine.name)
        patched := (targets.filter (fun t => classify t = .unhealthy)).map markMachine ++
          (targets.filter (fun t => classify t = .healthy)).map Target.machine } := by
  have hu : ∀ t ∈ targets.filter (fun t => classify t = .unhealthy), patchOk t.machine.name = true :=
    fun t ht => hp t (List.mem_of_mem_filter ht)
  have hh : ∀ t ∈ targets.filter (fun t => classify t = .healthy), patchOk t.machine.name = true :=
    fun t ht => hp t (List.mem_of_mem_filter ht)
  have hmu := markUnhealthyLoop_all_ok patchOk _ hu
  have hpt := patchTargets_all_ok patchOk _ hh
  simp only [reconcile, healthCheckTargets, postEvalMHC] at hadm hmu hpt ⊢
  by_cases hmin : 0 < minDuration ((targets.filter (fun t => decide (classify t = .pending))).map nextCheck)
  · simp [hadm, hmu, hpt, hmin]
  · simp [hadm, hmu, hpt, hmin]

/-- The target count is the sum of the healthy, unhealthy and pending
counts: every target is classified into exactly one class. -/
theorem length_filter_healthClass (classify : Target → HealthClass) (ts : List Target) :
    ts.length =
      (ts.filter (fun t => classify t = .healthy)).length +
      (ts.filter (fun t => classify t = .unhealthy)).length +
      (ts.filter (fun t => classify t = .pending)).length := by
  induction ts with
  | nil => rfl
  | cons t ts ih =>
    cases h : classify t <;> simp [List.filter_cons, h, ih] <;> omega

/-- The status written by every branch of reconcile is the one computed
by postEvalMHC from this pass's targets. -/
theorem reconcile_mhcStatus (patchOk : String → Bool) (classify : Target → HealthClass)
    (nextCheck : Target → Int) (m : MachineHealthCheck) (targets : List Target) :
    (reconcile patchOk classify nextCheck m targets).mhcStatus =
      (postEvalMHC classify m targets).status := by
  simp only [reconcile, healthCheckTargets]
  repeat' split
  all_goals rfl

/-! ## Claim theorems -/

/-- Claim C1: admission is decided by isAllowedRemediation as follows:
a nil MaxUnhealthy always admits; otherwise, with the unhealthy count
ExpectedMachines - CurrentHealthy and MaxUnhealthy resolved against
ExpectedMachines to r, remediation is admitted iff the unhealthy count
is at most r.  A percentage rounds down: "50%" against 3 resolves to 1;
on mhc50 (3 expected, 2 healthy, so 1 unhealthy) an unhealthy count
equal to the resolved 1 admits, and one more (2 healthy becomes 1)
denies. -/
theorem admission_decision (mhc : MachineHealthCheck) :
    (mhc.spec.maxUnhealthy = none → isAllowedRemediation mhc = true)
    ∧ (∀ mu r, mhc.spec.maxUnhealthy = some mu →
        getValueFromIntOrPercent mu mhc.status.expectedMachines false = some r →
        (isAllowedRemediation mhc = true ↔
          mhc.status.expectedMachines - mhc.status.currentHealthy ≤ r))
    ∧ getValueFromIntOrPercent (IntOrString.ofString "50%") 3 false = some 1
    ∧ isAllowedRemediation mhc50 = true
    ∧ isAllowedRemediation
        { mhc50 with status := { mhc50.status with currentHealthy := 1 } } = false := by
  refine ⟨fun h => by simp [isAllowedRemediation, h], fun mu r hmu hr => ?_,
    by decide, by decide, by decide⟩
  simp [isAllowedRemediation, hmu, hr]

/-- Witness for admission_decision: at mhc50 the resolved bound is 1 and
the admission decision is exactly the comparison 3 - 2 <= 1. -/
theorem admission_decision_witness :
    isAllowedRemediation mhc50 = true ↔
      mhc50.status.expectedMachines - mhc50.status.currentHealthy ≤ 1 :=
  (admission_decision mhc50).2.1 (IntOrString.ofString "50%") 1 rfl (by decide)

/-- Claim C2: a MaxUnhealthy that is set but cannot be resolved denies
remediation, and (with the target patches succeeding) the pass returns
no error: the malformed configuration is fail-closed, not an error. -/
theorem malformed_maxUnhealthy_fail_closed (mu : IntOrString)
    (hmal : getIntOrPercentValue mu = none) :
    (∀ mhc : MachineHealthCheck, mhc.spec.maxUnhealthy = some mu →
      isAllowedRemediation mhc = false)
    ∧ (∀ (patchOk : String → Bool) (classify : Target → HealthClass)
        (nextCheck : Target → Int) (m : MachineHealthCheck) (targets : List Target),
        m.spec.maxUnhealthy = some mu →
        (∀ t ∈ targets, patchOk t.machine.name = true) →
        (reconcile patchOk classify nextCheck m targets).err = false) := by
  have hres : ∀ total : Int, getValueFromIntOrPercent mu total false = none := by
    intro total
    simp [getValueFromIntOrPercent, hmal]
  constructor
  · intro mhc h
    simp [isAllowedRemediation, h, hres]
  · intro patchOk classify nextCheck m targets hmu hp
    have hden : isAllowedRemediation (postEvalMHC classify m targets) = false := by
      simp [isAllowedRemediation, postEvalMHC, hmu, hres]
    rw [reconcile_denied patchOk classify nextCheck m targets hden hp]

/-- Witness for malformed_maxUnhealthy_fail_closed: the unparsable value
"abc" denies remediation on mhcMalformed and the pass over one unhealthy
target returns no error. -/
theorem malformed_maxUnhealthy_fail_closed_witness :
    isAllowedRemediation mhcMalformed = false
    ∧ (reconcile (fun _ => true) (fun _ => HealthClass.unhealthy) (fun _ => 0)
        mhcMalformed [t0]).err = false := by
  have h := malformed_maxUnhealthy_fail_closed (IntOrString.ofString "abc") (by decide)
  exact ⟨h.1 mhcMalformed rfl,
    h.2 (fun _ => true) (fun _ => HealthClass.unhealthy) (fun _ => 0) mhcMalformed [t0] rfl
      (fun t _ => rfl)⟩

/-- Claim C7: in every pass the status carries ExpectedMachines equal to
the number of targets resolved this pass and Targets equal to exactly
their machine names, whatever the prior status held. -/
theorem expectedMachines_recomputed (patchOk : String → Bool) (classify : Target → HealthClass)
    (nextCheck : Target → Int) (m : MachineHealthCheck) (targets : List Target) :
    (reconcile patchOk classify nextCheck m targets).mhcStatus.expectedMachines =
      (targets.length : Int)
    ∧ (reconcile patchOk classify nextCheck m targets).mhcStatus.targets =
      targets.map (fun t => t.machine.name) := by
  rw [reconcile_mhcStatus patchOk classify nextCheck m targets]
  exact ⟨rfl, rfl⟩

/-- Claim C10: CurrentHealthy counts only targets classified healthy, so
with at least one pending target the admission-time unhealthy count
ExpectedMachines - CurrentHealthy strictly exceeds the number of targets
classified unhealthy. -/
theorem pending_counts_as_unhealthy (classify : Target → HealthClass)
    (m : MachineHealthCheck) (targets : List Target)
    (hpend : ∃ t ∈ targets, classify t = HealthClass.pending) :
    (postEvalMHC classify m targets).status.currentHealthy =
      ((targets.filter (fun t => classify t = HealthClass.healthy)).length : Int)
    ∧ ((targets.filter (fun t => classify t = HealthClass.unhealthy)).length : Int) <
      (postEvalMHC classify m targets).status.expectedMachines -
        (postEvalMHC classify m targets).status.currentHealthy := by
  refine ⟨rfl, ?_⟩
  have hlen := length_filter_healthClass classify targets
  have hpos : 0 < (targets.filter (fun t => classify t = HealthClass.pending)).length := by
    rcases hpend with ⟨t, ht, hc⟩
    exact List.length_pos_of_mem (List.mem_filter.mpr ⟨ht, by simp [hc]⟩)
  simp only [postEvalMHC]
  omega

/-- Witness for pending_counts_as_unhealthy: one target, classified
pending: zero healthy, zero unhealthy, and the admission-time unhealthy
count 1 - 0 exceeds the unhealthy-classified count 0. -/
theorem pending_counts_as_unhealthy_witness :
    (postEvalMHC (fun _ => HealthClass.pending) mhcNil [t0]).status.currentHealthy =
      ((([t0].filter (fun t => (fun _ => HealthClass.pending) t = HealthClass.healthy))).length : Int)
    ∧ ((([t0].filter (fun t => (fun _ => HealthClass.pending) t = HealthClass.unhealthy))).length : Int) <
      (postEvalMHC (fun _ => HealthClass.pending) mhcNil [t0]).status.expectedMachines -
        (postEvalMHC (fun _ => HealthClass.pending) mhcNil [t0]).status.currentHealthy :=
  pending_counts_as_unhealthy (fun _ => HealthClass.pending) mhcNil [t0]
    ⟨t0, List.mem_singleton_self t0, rfl⟩

/-- Claim C3: in a denied pass whose patches succeed, the machines
written back are exactly the healthy then the unhealthy targets'
machines, each unchanged (so no target's machine acquires the
remediation condition this pass), and the restriction event carrying the
three counts — total targets, current healthy, MaxUnhealthy — is emitted
exactly once. -/
theorem denied_pass_effects (patchOk : String → Bool) (classify : Target → HealthClass)
    (nextCheck : Target → Int) (m : MachineHealthCheck) (targets : List Target)
    (hden : isAllowedRemediation (postEvalMHC classify m targets) = false)
    (hp : ∀ t ∈ targets, patchOk t.machine.name = true) :
    (reconcile patchOk classify nextCheck m targets).patched =
      ((targets.filter (fun t => classify t = HealthClass.healthy)) ++
       (targets.filter (fun t => classify t = HealthClass.unhealthy))).map Target.machine
    ∧ (reconcile patchOk classify nextCheck m targets).events =
      [Event.restricted (targets.length : Int)
        ((targets.filter (fun t => classify t = HealthClass.healthy)).length : Int)
        m.spec.maxUnhealthy]
    ∧ (∀ mm ∈ (reconcile patchOk classify nextCheck m targets).patched,
        ∃ t ∈ targets, mm = t.machine) := by
  rw [reconcile_denied patchOk classify nextCheck m targets hden hp]
  refine ⟨rfl, rfl, ?_⟩
  intro mm hmm
  simp only [List.mem_map, List.mem_append] at hmm
  rcases hmm with ⟨t, ht, heq⟩
  rcases ht with ht | ht
  · exact ⟨t, List.mem_of_mem_filter ht, heq.symm⟩
  · exact ⟨t, List.mem_of_mem_filter ht, heq.symm⟩

/-- Witness for denied_pass_effects: mhcZero with a single unhealthy
target — the patched machine is machine0 unchanged and the single
restriction event records total 1, healthy 0 and MaxUnhealthy 0. -/
theorem denied_pass_effects_witness :
    (reconcile (fun _ => true) (fun _ => HealthClass.unhealthy) (fun _ => 0)
      mhcZero [t0]).patched = [machine0]
    ∧ (reconcile (fun _ => true) (fun _ => HealthClass.unhealthy) (fun _ => 0)
      mhcZero [t0]).events = [Event.restricted 1 0 (some (IntOrString.ofInt 0))]
    ∧ (∀ mm ∈ (reconcile (fun _ => true) (fun _ => HealthClass.unhealthy) (fun _ => 0)
      mhcZero [t0]).patched, ∃ t ∈ [t0], mm = t.machine) := by
  have h := denied_pass_effects (fun _ => true) (fun _ => HealthClass.unhealthy) (fun _ => 0)
    mhcZero [t0] (by decide) (fun t _ => rfl)
  refine ⟨?_, ?_, h.2.2⟩
  · rw [h.1]; decide
  · rw [h.2.1]; decide

/-- Counterexample to claim C4 as stated: a denied pass over mhcZero
with one unhealthy target and succeeding patches completes without error
but returns the Requeue flag with a zero RequeueAfter — an immediate
requeue, not a timed (delayed) retry. -/
theorem denied_pass_requeue_cex :
    (reconcile (fun _ => true) (fun _ => HealthClass.unhealthy) (fun _ => 0)
      mhcZero [t0]).err = false
    ∧ (reconcile (fun _ => true) (fun _ => HealthClass.unhealthy) (fun _ => 0)
      mhcZero [t0]).result.requeue = true
    ∧ ¬ 0 < (reconcile (fun _ => true) (fun _ => HealthClass.unhealthy) (fun _ => 0)
      mhcZero [t0]).result.requeueAfter := by
  decide

/-- Claim C4 (amended): every denied pass whose patches all succeed
completes without error and returns Requeue true with RequeueAfter zero:
an immediate requeue through the workqueue rather than waiting
indefinitely for an external event (the retry is not a timed delay). -/
theorem denied_pass_requeues (patchOk : String → Bool) (classify : Target → HealthClass)
    (nextCheck : Target → Int) (m : MachineHealthCheck) (targets : List Target)
    (hden : isAllowedRemediation (postEvalMHC classify m targets) = false)
    (hp : ∀ t ∈ targets, patchOk t.machine.name = true) :
    (reconcile patchOk classify nextCheck m targets).err = false
    ∧ (reconcile patchOk classify nextCheck m targets).result =
      { requeue := true, requeueAfter := 0 } := by
  rw [reconcile_denied patchOk classify nextCheck m targets hden hp]
  exact ⟨rfl, rfl⟩

/-- Witness for denied_pass_requeues at mhcZero with one unhealthy
target. -/
theorem denied_pass_requeues_witness :
    (reconcile (fun _ => true) (fun _ => HealthClass.unhealthy) (fun _ => 0)
      mhcZero [t0]).err = false
    ∧ (reconcile (fun _ => true) (fun _ => HealthClass.unhealthy) (fun _ => 0)
      mhcZero [t0]).result = { requeue := true, requeueAfter := 0 } :=
  denied_pass_requeues (fun _ => true) (fun _ => HealthClass.unhealthy) (fun _ => 0)
    mhcZero [t0] (by decide) (fun t _ => rfl)

/-- Counterexample to claim C5 as stated: staleMachine already carries
the remediation condition from an earlier pass; in a pass with admission
granted that classifies its target healthy, the machine is written back
unchanged and still carries the condition after the patch step, although
the most recent evaluation did not classify it unhealthy. -/
theorem stale_condition_cex :
    isAllowedRemediation (postEvalMHC (fun _ => HealthClass.healthy) mhcNil [tStale]) = true
    ∧ (reconcile (fun _ => true) (fun _ => HealthClass.healthy) (fun _ => 0)
      mhcNil [tStale]).patched = [staleMachine]
    ∧ remediationCondition ∈ staleMachine.conditions := by
  decide

/-- Claim C5 (amended): in a pass with admission granted and patches
succeeding, the machines written back are exactly the unhealthy targets
marked with the remediation condition followed by the healthy targets
unchanged; every marked machine carries the condition with status False,
reason WaitingForRemediation, severity Warning and the fixed message;
one marked-unhealthy event of Normal type is emitted per unhealthy
target; and for a target whose machine did not already carry the
condition, the written-back machine carries it iff the target was
classified unhealthy — a machine already carrying the condition keeps it
even when classified healthy, since this controller never removes it. -/
theorem granted_pass_marking (patchOk : String → Bool) (classify : Target → HealthClass)
    (nextCheck : Target → Int) (m : MachineHealthCheck) (targets : List Target)
    (hadm : isAllowedRemediation (postEvalMHC classify m targets) = true)
    (hp : ∀ t ∈ targets, patchOk t.machine.name = true) :
    (reconcile patchOk classify nextCheck m targets).patched =
      (targets.filter (fun t => classify t = HealthClass.unhealthy)).map markMachine ++
      (targets.filter (fun t => classify t = HealthClass.healthy)).map Target.machine
    ∧ (∀ t : Target, remediationCondition ∈ (markMachine t).conditions)
    ∧ (reconcile patchOk classify nextCheck m targets).events =
      (targets.filter (fun t => classify t = HealthClass.unhealthy)).map
        (fun t => Event.markedUnhealthy t.machine.name)
    ∧ (∀ ev ∈ (reconcile patchOk classify nextCheck m targets).events,
        ev.eventType = "Normal")
    ∧ (∀ t ∈ targets, remediationCondition ∉ t.machine.conditions →
        (classify t = HealthClass.unhealthy →
          markMachine t ∈ (reconcile patchOk classify nextCheck m targets).patched ∧
          remediationCondition ∈ (markMachine t).conditions)
        ∧ (classify t = HealthClass.healthy →
          t.machine ∈ (reconcile patchOk classify nextCheck m targets).patched ∧
          remediationCondition ∉ t.machine.conditions)) := by
  rw [reconcile_granted patchOk classify nextCheck m targets hadm hp]
  have hmark : ∀ t : Target, remediationCondition ∈ (markMachine t).conditions := by
    intro t
    simp [markMachine, setCondition]
  refine ⟨rfl, hmark, rfl, ?_, ?_⟩
  · intro ev hev
    simp only [List.mem_map] at hev
    rcases hev with ⟨t, _, heq⟩
    rw [← heq]
    rfl
  · intro t ht hfree
    constructor
    · intro hu
      refine ⟨List.mem_append.mpr (Or.inl ?_), hmark t⟩
      exact List.mem_map.mpr ⟨t, List.mem_filter.mpr ⟨ht, by simp [hu]⟩, rfl⟩
    · intro hh
      refine ⟨List.mem_append.mpr (Or.inr ?_), hfree⟩
      exact List.mem_map.mpr ⟨t, List.mem_filter.mpr ⟨ht, by simp [hh]⟩, rfl⟩

/-- Witness for granted_pass_marking: admission granted (no
MaxUnhealthy), t0 classified unhealthy and tStale healthy — the patched
machines are the marked machine0 followed by staleMachine unchanged, and
one Normal marked-unhealthy event for m0 is emitted. -/
theorem granted_pass_marking_witness :
    (reconcile (fun _ => true) classifyW (fun _ => 0) mhcNil [t0, tStale]).patched =
      [markMachine t0, staleMachine]
    ∧ (reconcile (fun _ => true) classifyW (fun _ => 0) mhcNil [t0, tStale]).events =
      [Event.markedUnhealthy "m0"]
    ∧ remediationCondition ∈ (markMachine t0).conditions := by
  have h := granted_pass_marking (fun _ => true) classifyW (fun _ => 0) mhcNil [t0, tStale]
    (by decide) (fun t _ => rfl)
  refine ⟨?_, ?_, h.2.1 t0⟩
  · rw [h.1]; decide
  · rw [h.2.2.1]; decide

/-- Counterexample to claim C6 as stated: with the policy found and the
cluster Get returning NotFound, Reconcile returns an error rather than
completing silently. -/
theorem cluster_notFound_cex :
    (Reconcile (GetResult.found mhcNil) GetResult.notFound false (fun _ => true)
      (fun _ => HealthClass.healthy) (fun _ => 0) []).err = true := by
  rfl

/-- Claim C6 (amended): a pass whose policy Get returns NotFound
completes silently — no error, no event, no machine patched; a pass
whose policy is found but whose cluster Get returns NotFound returns an
error to the caller (surfaced for outer retry), also with no event and
no machine patched. -/
theorem notFound_handling (mhcGet : GetResult MachineHealthCheck) (clusterGet : GetResult Unit)
    (paused : Bool) (patchOk : String → Bool) (classify : Target → HealthClass)
    (nextCheck : Target → Int) (targets : List Target) :
    (mhcGet = GetResult.notFound →
      (Reconcile mhcGet clusterGet paused patchOk classify nextCheck targets).err = false
      ∧ (Reconcile mhcGet clusterGet paused patchOk classify nextCheck targets).events = []
      ∧ (Reconcile mhcGet clusterGet paused patchOk classify nextCheck targets).patched = [])
    ∧ (∀ m, mhcGet = GetResult.found m → clusterGet = GetResult.notFound →
      (Reconcile mhcGet clusterGet paused patchOk classify nextCheck targets).err = true
      ∧ (Reconcile mhcGet clusterGet paused patchOk classify nextCheck targets).events = []
      ∧ (Reconcile mhcGet clusterGet paused patchOk classify nextCheck targets).patched = []) := by
  constructor
  · rintro rfl
    exact ⟨rfl, rfl, rfl⟩
  · rintro m rfl rfl
    exact ⟨rfl, rfl, rfl⟩

/-- Witness for notFound_handling: policy found, cluster NotFound — the
pass errors with no events and no patches. -/
theorem notFound_handling_witness :
    (Reconcile (GetResult.found mhcNil) GetResult.notFound false (fun _ => true)
      (fun _ => HealthClass.healthy) (fun _ => 0) []).err = true
    ∧ (Reconcile (GetResult.found mhcNil) GetResult.notFound false (fun _ => true)
      (fun _ => HealthClass.healthy) (fun _ => 0) []).events = []
    ∧ (Reconcile (GetResult.found mhcNil) GetResult.notFound false (fun _ => true)
      (fun _ => HealthClass.healthy) (fun _ => 0) []).patched = [] :=
  (notFound_handling (GetResult.found mhcNil) GetResult.notFound false (fun _ => true)
    (fun _ => HealthClass.healthy) (fun _ => 0) []).2 mhcNil rfl rfl

/-- Claim C8: a request is produced by the machine mapping iff some
stored policy lives in the machine's namespace, is labeled with the
machine's cluster name, has a selector matching the machine's labels,
and the request names exactly that policy. -/
theorem machine_mapping_exact (store : List MachineHealthCheck) (m : Machine) (req : Request) :
    req ∈ machineToMachineHealthCheck store m ↔
      ∃ mhc, mhc ∈ store ∧ mhc.namespc = m.namespc
        ∧ mhc.labels.lookup clusterLabelName = some m.clusterName
        ∧ hasMatchingLabels mhc.spec.selector m.labels = true
        ∧ req = { namespc := mhc.namespc, name := mhc.name } := by
  simp only [machineToMachineHealthCheck, listMHCs, List.mem_filterMap, List.mem_filter,
    decide_eq_true_eq]
  constructor
  · rintro ⟨mhc, ⟨hmem, hns, hlbl⟩, hf⟩
    by_cases hmatch : hasMatchingLabels mhc.spec.selector m.labels
    · rw [if_pos hmatch] at hf
      exact ⟨mhc, hmem, hns, hlbl, hmatch, (Option.some.inj hf).symm⟩
    · rw [if_neg hmatch] at hf
      exact Option.noConfusion hf
  · rintro ⟨mhc, hmem, hns, hlbl, hmatch, rfl⟩
    exact ⟨mhc, ⟨hmem, hns, hlbl⟩, by rw [if_pos hmatch]⟩

/-- Claim C9: the node mapping resolves the node to its owning machine
by the stored node-reference name; when zero or several machines match,
no request is produced; when exactly one matches, the result is the
machine mapping applied to it. -/
theorem node_mapping (store : List MachineHealthCheck) (machines : List Machine)
    (nodeName : String) :
    ((machines.filter (fun m0 => m0.nodeRefName = some nodeName)).length ≠ 1 →
      nodeToMachineHealthCheck store machines nodeName = [])
    ∧ (∀ m0, machines.filter (fun m1 => m1.nodeRefName = some nodeName) = [m0] →
      nodeToMachineHealthCheck store machines nodeName =
        machineToMachineHealthCheck store m0) := by
  constructor
  · intro hlen
    rcases hfl : machines.filter (fun m0 => m0.nodeRefName = some nodeName) with _ | ⟨a, rest⟩
    · simp [nodeToMachineHealthCheck, getMachineFromNode, hfl]
    · rcases rest with _ | ⟨b, rest2⟩
      · rw [hfl] at hlen
        simp at hlen
      · simp [nodeToMachineHealthCheck, getMachineFromNode, hfl]
  · intro m0 hfl
    simp [nodeToMachineHealthCheck, getMachineFromNode, hfl]

/-- Witness for node_mapping: machine0 is the unique machine whose node
reference names n0, so the node mapping for n0 is the machine mapping of
machine0. -/
theorem node_mapping_witness :
    nodeToMachineHealthCheck [mhcNil] [machine0] "n0" =
      machineToMachineHealthCheck [mhcNil] machine0 :=
  (node_mapping [mhcNil] [machine0] "n0").2 machine0 (by decide)

end CAPI
